import Mathlib

/-!
Verification development for the Chip16/Chip64 virtual-machine toolchain.

The repository contains two parallel emulators, `chip16.py` and `chip64.py`.
`chip16.py` does not parse (an indentation error at the `spl` method and a
stray `continue` inside `execute`), so the executable semantics is taken from
`chip64.py`, whose handler bodies are line-for-line the same algorithms.
Per the specification the register width is a compile-time parameter with
default 16 bits, so every register write that numpy keeps inside a fixed-width
unsigned type is rendered as `% 65536` (`np.uint16` wrap-around).

Modelling conventions:
* machine words and bytes are `Nat` with explicit `% 2^w` where numpy wraps;
* Python exceptions (IndexError from list indexing, pop from an empty list,
  AttributeError from a `None` device, NameError from the undefined
  identifiers in `spill_register`/`load_registers`) are rendered as `none` /
  `Outcome.fault`;
* the device table is modelled with the pure `MemoryDevice` port from
  `chip16_device.py` (the only device whose `read`/`write` are deterministic);
* the random draw of opcode `CXNN` is an explicit oracle argument `rnd`.
-/

/-- Utility from `chip64_util.py`: given `0xABCD` returns `0xAB`. -/
def high_byte (v : Nat) : Nat := (v &&& 0xFF00) >>> 8

/-- Utility from `chip64_util.py`: given `0xABCD` returns `0xCD`. -/
def low_byte (v : Nat) : Nat := v &&& 0xFF

/-- Utility from `chip64_util.py`: concatenates a high and a low byte. -/
def concat (hb lb : Nat) : Nat := (hb <<< 8) ||| lb

/-- Utility from `chip64_util.py`: the `n`-th nibble of a word,
counted from the least significant. -/
def get_nibble (v n : Nat) : Nat := (v &&& (0xF <<< (4 * n))) >>> (4 * n)

/-- Pointwise register-file update, the rendering of a Python list
assignment `registers[i] = v` (registers are a 16-element list; every index
that reaches it is a 4-bit nibble, so a total function on `Nat` is used). -/
def updReg (r : Nat → Nat) (i v : Nat) : Nat → Nat :=
  fun n => if n = i then v else r n

/-- The `MemoryDevice` of `chip16_device.py`: a flat byte buffer with an
internal cursor. -/
structure MemoryDevice where
  ptr : Nat
  memory : List Nat
  deriving DecidableEq

/-- `MemoryDevice.read`: `return self.memory[self.ptr : self.ptr + nbytes]`
(a Python slice, which never fails). -/
def mdRead (d : MemoryDevice) (nbytes : Nat) : List Nat :=
  (d.memory.drop d.ptr).take nbytes

/-- Helper for `mdWrite`: the loop
`for i, byte in enumerate(bytes): self.memory[self.ptr + i] = byte`. -/
def listWriteAt (m : List Nat) (p : Nat) : List Nat → List Nat
  | [] => m
  | b :: bs => listWriteAt (m.set p b) (p + 1) bs

/-- `MemoryDevice.write`: element-wise assignment starting at the cursor.
Python raises IndexError when `ptr + i` falls outside the buffer, rendered
here as `none`. -/
def mdWrite (d : MemoryDevice) (bs : List Nat) : Option MemoryDevice :=
  if d.ptr + bs.length ≤ d.memory.length then
    some { d with memory := listWriteAt d.memory d.ptr bs }
  else none

/-- `MemoryDevice.get_ptr`. -/
def mdGetPtr (d : MemoryDevice) : Nat := d.ptr

/-- `MemoryDevice.set_ptr`. -/
def mdSetPtr (d : MemoryDevice) (v : Nat) : MemoryDevice := { d with ptr := v }

/-- Device-table update (assignment into the 16-slot device list). -/
def updDev (ds : Nat → Option MemoryDevice) (i : Nat) (d : Option MemoryDevice) :
    Nat → Option MemoryDevice :=
  fun n => if n = i then d else ds n

/-- The VM state of `Chip64.__init__` (`chip64.py`): 4096 bytes of memory,
sixteen word registers, a call stack, the code pointer, the memory index
register and the `alert` flag, plus the 16-slot device table. -/
structure Chip64 where
  memory : List Nat
  registers : Nat → Nat
  stack : List Nat
  code_ptr : Nat
  memory_ptr : Nat
  alert : Bool
  devices : Nat → Option MemoryDevice

/-- Opcode `01EE` (`Chip64.subroutine_return`): pop the stack into the code
pointer; popping an empty Python list raises, hence `Option`. -/
def subroutine_return (s : Chip64) : Option Chip64 :=
  match s.stack with
  | [] => none
  | a :: rest => some { s with code_ptr := a, stack := rest }

/-- Opcode `1NNN` (`Chip64.goto`). -/
def goto (address : Nat) (s : Chip64) : Chip64 :=
  { s with code_ptr := address }

/-- Opcode `2NNN` (`Chip64.subroutine_call`): pushes `self.code_ptr` (the
address of the CALL itself, not `code_ptr + 2`) and jumps. -/
def subroutine_call (address : Nat) (s : Chip64) : Chip64 :=
  { s with stack := s.code_ptr :: s.stack, code_ptr := address }

/-- Opcode `3XNN` (`Chip64.skip_next_if_equal_const`). -/
def skip_next_if_equal_const (x nn : Nat) (s : Chip64) : Chip64 :=
  if s.registers x = nn then { s with code_ptr := s.code_ptr + 2 } else s

/-- Opcode `4XNN` (`Chip64.skip_next_if_unequal_const`). -/
def skip_next_if_unequal_const (x nn : Nat) (s : Chip64) : Chip64 :=
  if s.registers x ≠ nn then { s with code_ptr := s.code_ptr + 2 } else s

/-- Opcode `5XY0` (`Chip64.skip_next_if_equal`). -/
def skip_next_if_equal (x y : Nat) (s : Chip64) : Chip64 :=
  if s.registers x = s.registers y then { s with code_ptr := s.code_ptr + 2 } else s

/-- Opcode `9XY0` (`Chip64.skip_next_if_unequal`). -/
def skip_next_if_unequal (x y : Nat) (s : Chip64) : Chip64 :=
  if s.registers x ≠ s.registers y then { s with code_ptr := s.code_ptr + 2 } else s

/-- Opcode `6XNN` (`Chip64.assign_const_to_register`); `NN` is a byte so the
stored value is below the register width already. -/
def assign_const_to_register (x nn : Nat) (s : Chip64) : Chip64 :=
  { s with registers := updReg s.registers x nn }

/-- Opcode `7XNN` (`Chip64.add_const_to_register`), wrapping addition at the
16-bit register width (`chip16.py` adds `np.uint16`s; `chip64.py` promotes to
`np.uint64` — the spec fixes the width parameter at 16). -/
def add_const_to_register (x nn : Nat) (s : Chip64) : Chip64 :=
  { s with registers := updReg s.registers x ((s.registers x + nn) % 65536) }

/-- Opcode `8XY0` (`Chip64.assign_register`). -/
def assign_register (x y : Nat) (s : Chip64) : Chip64 :=
  { s with registers := updReg s.registers x (s.registers y) }

/-- Opcode `8XY1` (`Chip64.bitwise_or`). -/
def bitwise_or (x y : Nat) (s : Chip64) : Chip64 :=
  { s with registers := updReg s.registers x (s.registers x ||| s.registers y) }

/-- Opcode `8XY2` (`Chip64.bitwise_and`). -/
def bitwise_and (x y : Nat) (s : Chip64) : Chip64 :=
  { s with registers := updReg s.registers x (s.registers x &&& s.registers y) }

/-- Opcode `8XY3` (`Chip64.bitwise_xor`). -/
def bitwise_xor (x y : Nat) (s : Chip64) : Chip64 :=
  { s with registers := updReg s.registers x (s.registers x ^^^ s.registers y) }

/-- Opcode `8XY4` (`Chip64.add_registers`): the wrapped sum is computed, the
flag register `0xF` is written first (`1` when the sum wrapped, detected by
`tmp < registers[dest]`), then the destination — so a destination of `0xF`
overwrites the just-written flag, exactly as in the source. -/
def add_registers (x y : Nat) (s : Chip64) : Chip64 :=
  let tmp := (s.registers x + s.registers y) % 65536
  { s with registers :=
      updReg (updReg s.registers 0xF (if tmp < s.registers x then 1 else 0)) x tmp }

/-- Opcode `8XY5` (`Chip64.subtract_registers`): the no-borrow flag is written
to register `0xF` first, then `registers[dest] -= registers[src]` — the
subtraction reads both registers after the flag write, as in the source. -/
def subtract_registers (x y : Nat) (s : Chip64) : Chip64 :=
  let r1 := updReg s.registers 0xF (if s.registers x ≥ s.registers y then 1 else 0)
  { s with registers := updReg r1 x ((r1 x + 65536 - r1 y) % 65536) }

/-- Opcode `8XY6` (`Chip64.bitwise_right_shift`): a shift count of 0 only
clears the flag and returns; otherwise the flag receives bit `count-1` of the
destination and the destination is shifted (read after the flag write). -/
def bitwise_right_shift (x cnt : Nat) (s : Chip64) : Chip64 :=
  if cnt = 0 then { s with registers := updReg s.registers 0xF 0 }
  else
    let r1 := updReg s.registers 0xF
      (if s.registers x &&& (1 <<< (cnt - 1)) ≠ 0 then 1 else 0)
    { s with registers := updReg r1 x (r1 x >>> cnt) }

/-- Opcode `8XYE` (`Chip64.bitwise_left_shift`): count 0 only clears the flag;
otherwise the top-end bit is sampled and the destination shifted with 16-bit
wrap. (`chip64.py` writes the bit index as `64 - count` and lets numpy promote
to `np.uint64`; `chip16.py` writes `16 - count` — the spec's width-16
parameterisation is used. No claim touches a nonzero count.) -/
def bitwise_left_shift (x cnt : Nat) (s : Chip64) : Chip64 :=
  if cnt = 0 then { s with registers := updReg s.registers 0xF 0 }
  else
    let r1 := updReg s.registers 0xF
      (if s.registers x &&& (1 <<< (16 - cnt)) ≠ 0 then 1 else 0)
    { s with registers := updReg r1 x ((r1 x <<< cnt) % 65536) }

/-- Opcode `ANNN` (`Chip64.set_memory_ptr`). -/
def set_memory_ptr (v : Nat) (s : Chip64) : Chip64 :=
  { s with memory_ptr := v }

/-- Opcode `BNNN` (`Chip64.set_code_ptr_to_acc_plus_const`), wrapping at the
register width. -/
def set_code_ptr_to_acc_plus_const (c : Nat) (s : Chip64) : Chip64 :=
  { s with code_ptr := (s.registers 0 + c) % 65536 }

/-- Opcode `CXNN` (`Chip64.bitwise_and_rand`): `randint(0, 255) & NN`, with
the random byte supplied by the oracle `rnd`. -/
def bitwise_and_rand (rnd x nn : Nat) (s : Chip64) : Chip64 :=
  { s with registers := updReg s.registers x ((rnd % 256) &&& nn) }

/-- Opcode `EX1E` (`Chip64.add_register_to_memory_ptr`); `memory_ptr` is a
plain Python int in `chip64.py`, so no wrap is applied. -/
def add_register_to_memory_ptr (x : Nat) (s : Chip64) : Chip64 :=
  { s with memory_ptr := s.memory_ptr + s.registers x }

/-- Result of one iteration of the fetch-execute loop. -/
inductive Outcome where
  | halted : Outcome
  | fault : Outcome
  | stepped : Chip64 → Outcome

/-- Projection used to state facts about a successful step. -/
def outState (o : Outcome) : Option Chip64 :=
  match o with
  | .stepped s => some s
  | _ => none

/-- Opcode fetch: `concat(self.memory[self.code_ptr], self.memory[self.code_ptr + 1])`;
list indexing out of range raises in Python, hence `Option`. -/
def fetch (s : Chip64) : Option Nat :=
  match s.memory.get? s.code_ptr, s.memory.get? (s.code_ptr + 1) with
  | some hb, some lb => some (concat hb lb)
  | _, _ => none

/-- The `nib3` dispatch ladder of `Chip64.execute`, returning the mutated
state and the `code_ptr_increment_flag`. Branches faithful to the source:
* `8XY7` calls `subtract_registers` with the nibbles swapped;
* `DXNN` reads from the device but the copy loop `for ptr, value in zip(...)`
  only rebinds its loop variable, so the VM memory is left untouched;
* `EX55` faults: `execute` invokes `self.spill_registers`, a method that does
  not exist (the method is named `spill_register`, and its body also calls the
  undefined `c16u.split`);
* `EX65` faults: `load_registers` assigns to `self.registers[register]` with
  `register` undefined (NameError);
* a `nib3` matching no branch (only `nib3 = 0` remains) falls through with the
  increment flag still set — no `else` exists and `alert` is never written. -/
def dispatch (rnd op : Nat) (s : Chip64) : Option (Chip64 × Bool) :=
  let nib3 := get_nibble op 3
  if nib3 = 1 then some (goto (op &&& 0xFFF) s, false)
  else if nib3 = 2 then some (subroutine_call (op &&& 0xFFF) s, false)
  else if nib3 = 3 then
    some (skip_next_if_equal_const (get_nibble op 2) (low_byte op) s, true)
  else if nib3 = 4 then
    some (skip_next_if_unequal_const (get_nibble op 2) (low_byte op) s, true)
  else if nib3 = 5 then
    some (skip_next_if_equal (get_nibble op 2) (get_nibble op 1) s, true)
  else if nib3 = 6 then
    some (assign_const_to_register (get_nibble op 2) (low_byte op) s, true)
  else if nib3 = 7 then
    some (add_const_to_register (get_nibble op 2) (low_byte op) s, true)
  else if nib3 = 8 then
    let nib0 := get_nibble op 0
    if nib0 = 0 then some (assign_register (get_nibble op 2) (get_nibble op 1) s, true)
    else if nib0 = 1 then some (bitwise_or (get_nibble op 2) (get_nibble op 1) s, true)
    else if nib0 = 2 then some (bitwise_and (get_nibble op 2) (get_nibble op 1) s, true)
    else if nib0 = 3 then some (bitwise_xor (get_nibble op 2) (get_nibble op 1) s, true)
    else if nib0 = 4 then some (add_registers (get_nibble op 2) (get_nibble op 1) s, true)
    else if nib0 = 5 then
      some (subtract_registers (get_nibble op 2) (get_nibble op 1) s, true)
    else if nib0 = 6 then
      some (bitwise_right_shift (get_nibble op 2) (get_nibble op 1) s, true)
    else if nib0 = 7 then
      some (subtract_registers (get_nibble op 1) (get_nibble op 2) s, true)
    else if nib0 = 0xE then
      some (bitwise_left_shift (get_nibble op 2) (get_nibble op 1) s, true)
    else some (s, true)
  else if nib3 = 9 then
    some (skip_next_if_unequal (get_nibble op 2) (get_nibble op 1) s, true)
  else if nib3 = 0xA then some (set_memory_ptr (op &&& 0xFFF) s, true)
  else if nib3 = 0xB then some (set_code_ptr_to_acc_plus_const (op &&& 0xFFF) s, false)
  else if nib3 = 0xC then
    some (bitwise_and_rand rnd (get_nibble op 2) (low_byte op) s, true)
  else if nib3 = 0xD then
    match s.devices (get_nibble op 2) with
    | none => none
    | some d =>
      let _values := mdRead d (low_byte op)
      some (s, true)
  else if nib3 = 0xE then
    let lb := low_byte op
    let s1? : Option Chip64 :=
      if lb = 0x0 then
        match s.devices (get_nibble op 2) with
        | none => none
        | some d =>
          let d2 := mdSetPtr d (s.registers 0xF)
          some { s with devices := updDev s.devices (get_nibble op 2) (some d2) }
      else if lb = 0x1 then
        match s.devices (get_nibble op 2) with
        | none => none
        | some d =>
          some { s with registers := updReg s.registers 0xF (mdGetPtr d) }
      else some s
    match s1? with
    | none => none
    | some s1 =>
      if lb = 0x1E then some (add_register_to_memory_ptr (get_nibble op 2) s1, true)
      else if lb = 0x55 then none
      else if lb = 0x65 then none
      else some (s1, true)
  else if nib3 = 0xF then
    match s.devices (get_nibble op 2) with
    | none => none
    | some d =>
      let values := (s.memory.drop s.memory_ptr).take (low_byte op)
      match mdWrite d values with
      | none => none
      | some d2 =>
        some ({ s with devices := updDev s.devices (get_nibble op 2) (some d2) }, true)
  else some (s, true)

/-- One iteration of the `while` loop in `Chip64.execute`: fetch, the
`0x0000` (halt) and `0x01EE` (return) checks, the `nib3` dispatch, then the
conditional `code_ptr += 2`. Note the source runs the dispatch in the same
iteration after a `0x01EE` return (its `nib3` is 0, so nothing matches and
the post-dispatch advance adds 2 to the popped address). -/
def step (rnd : Nat) (s : Chip64) : Outcome :=
  match fetch s with
  | none => .fault
  | some op =>
    if op = 0x0000 then .halted
    else
      match (if op = 0x01EE then subroutine_return s else some s) with
      | none => .fault
      | some s1 =>
        match dispatch rnd op s1 with
        | none => .fault
        | some (s2, adv) =>
          .stepped (if adv then { s2 with code_ptr := s2.code_ptr + 2 } else s2)

/-!
The assembler (`chip16_asm.py`): tokenizer, opcode builders, symbol table
and the single-pass assembly loop with back-patching.
-/

/-- One step of `tokenise` from `chip16_asm.py`: `#` starts a comment that
runs to the next newline (the newline itself is consumed without flushing the
identifier buffer, as in the source); alphanumerics and `_` extend the
buffer; whitespace flushes it; `,` and `:` flush and are tokens themselves. -/
def tokeniseAux : List Char → List Char → Bool → List String
  | [], buf, _ => if buf.isEmpty then [] else [String.mk buf.reverse]
  | c :: rest, buf, comment =>
    if c = '#' then tokeniseAux rest buf true
    else if comment && c ≠ '\n' then tokeniseAux rest buf true
    else if comment && c = '\n' then tokeniseAux rest buf false
    else if c.isAlphanum || c = '_' then tokeniseAux rest (c :: buf) comment
    else if c.isWhitespace || c = ',' || c = ':' then
      (if buf.isEmpty then [] else [String.mk buf.reverse]) ++
        (if c = ',' || c = ':' then [String.mk [c]] else []) ++
        tokeniseAux rest [] comment
    else tokeniseAux rest buf comment

/-- `tokenise(source_code)` from `chip16_asm.py`. -/
def tokenise (src : String) : List String := tokeniseAux src.data [] false

/-- Value of one hexadecimal digit character. -/
def hexDigit? (c : Char) : Option Nat :=
  if '0' ≤ c ∧ c ≤ '9' then some (c.toNat - 48)
  else if 'a' ≤ c ∧ c ≤ 'f' then some (c.toNat - 87)
  else if 'A' ≤ c ∧ c ≤ 'F' then some (c.toNat - 55)
  else none

/-- Accumulating hexadecimal evaluation of a digit list. -/
def hexCore : List Char → Nat → Option Nat
  | [], acc => some acc
  | c :: cs, acc =>
    match hexDigit? c with
    | some d => hexCore cs (16 * acc + d)
    | none => none

/-- Model of Python `int(string, 16)` on assembler tokens (which consist of
alphanumerics and `_` only): an optional `0x`/`0X` prefix followed by at
least one hex digit. (Python additionally accepts `_` digit separators;
no token in the repository or the claims uses them.) -/
def hexVal? (s : String) : Option Nat :=
  let cs := s.data
  let cs := if cs.take 2 = ['0', 'x'] ∨ cs.take 2 = ['0', 'X'] then cs.drop 2 else cs
  match cs with
  | [] => none
  | _ => hexCore cs 0

/-- `is_hex` from `chip64_util.py`: whether `int(string, 16)` succeeds. -/
def is_hex (s : String) : Bool := (hexVal? s).isSome

/-- `register_mnemonics` from `chip16_asm.py` (`"r" + hex(i)[2:].upper()`);
the explicit value is pinned by `test_register_mnemonics` in
`tests/chip16_test_asm.py`. -/
def register_mnemonics : List String :=
  ["r0", "r1", "r2", "r3", "r4", "r5", "r6", "r7",
   "r8", "r9", "rA", "rB", "rC", "rD", "rE", "rF"]

/-- `device_mnemonics` from `chip16_asm.py`, pinned by `test_device_mnemonics`. -/
def device_mnemonics : List String :=
  ["dev0", "dev1", "dev2", "dev3", "dev4", "dev5", "dev6", "dev7",
   "dev8", "dev9", "devA", "devB", "devC", "devD", "devE", "devF"]

/-- `reg_tk_int`: index of a register token (callers guard membership in
`register_mnemonics`, under which the parse never fails). -/
def reg_tk_int (t : String) : Nat := (hexVal? (t.drop 1)).getD 0

/-- `dev_tk_int`: index of a device token. -/
def dev_tk_int (t : String) : Nat := (hexVal? (t.drop 3)).getD 0

/-- `build_opcode` on a 4-tuple; the `assert` is rendered as the guard. -/
def build_opcode4 (a b c d : Nat) : Option Nat :=
  if a < 0x10 ∧ b < 0x10 ∧ c < 0x10 ∧ d < 0x10 then
    some ((a <<< 12) ||| (b <<< 8) ||| (c <<< 4) ||| d)
  else none

/-- `build_opcode` on a 3-tuple. -/
def build_opcode3 (a b c : Nat) : Option Nat :=
  if a < 0x10 ∧ b < 0x10 ∧ c < 0x100 then
    some ((a <<< 12) ||| (b <<< 8) ||| c)
  else none

/-- `build_opcode` on a 2-tuple. -/
def build_opcode2 (a b : Nat) : Option Nat :=
  if a < 0x10 ∧ b < 0x1000 then some ((a <<< 12) ||| b) else none

/-- Kinds of symbol-table entries (`"label"` / `"goto"` strings in the
source). -/
inductive SymKind where
  | label : SymKind
  | goto : SymKind
  deriving DecidableEq

/-- The assembler symbol table: an insertion-ordered map from label name to
its list of `(kind, value)` entries, as the Python dict of lists. -/
abbrev Symtab : Type := List (String × List (SymKind × Nat))

/-- Dict lookup `self.symbol_table[name]`. -/
def stLookup (st : Symtab) (k : String) : Option (List (SymKind × Nat)) :=
  match st with
  | [] => none
  | (k2, es) :: rest => if k2 = k then some es else stLookup rest k

/-- Dict insertion of a fresh key. -/
def stInsert (st : Symtab) (k : String) (es : List (SymKind × Nat)) : Symtab :=
  st ++ [(k, es)]

/-- `self.symbol_table[name].append(entry)` for an existing key. -/
def stAppend (st : Symtab) (k : String) (e : SymKind × Nat) : Symtab :=
  match st with
  | [] => []
  | (k2, es) :: rest =>
    if k2 = k then (k2, es ++ [e]) :: rest else (k2, es) :: stAppend rest k e

/-- The `for t, v in ...: if t == "label": ... break / else:` search in
`assemble_cg`: the first `label` entry, if any. -/
def findLabelEntry : List (SymKind × Nat) → Option Nat
  | [] => none
  | (SymKind.label, v) :: _ => some v
  | _ :: es => findLabelEntry es

/-- `Assembler.assemble_r2r`: consume `rX , rY` and emit
`build_opcode((op1, X, Y, op2))`; any unexpected token raises. -/
def assemble_r2r (op1 op2 : Nat) (ts : List String) (ops : List Nat) :
    Option (List String × List Nat) :=
  match ts with
  | rtok :: comma :: stok :: rest =>
    if rtok ∈ register_mnemonics ∧ comma = "," ∧ stok ∈ register_mnemonics then
      match build_opcode4 op1 (reg_tk_int rtok) (reg_tk_int stok) op2 with
      | some w => some (rest, ops ++ [w])
      | none => none
    else none
  | _ => none

/-- `Assembler.assemble_const`: consume a hex literal, mask to 12 bits, emit
`build_opcode((op1, value))`. -/
def assemble_const (op1 : Nat) (ts : List String) (ops : List Nat) :
    Option (List String × List Nat) :=
  match ts with
  | htok :: rest =>
    if is_hex htok then
      match build_opcode2 op1 ((hexVal? htok).getD 0 &&& 0xFFF) with
      | some w => some (rest, ops ++ [w])
      | none => none
    else none
  | [] => none

/-- `Assembler.assemble_dp`: consume `devX`, emit `build_opcode((0xE, X, op))`. -/
def assemble_dp (op : Nat) (ts : List String) (ops : List Nat) :
    Option (List String × List Nat) :=
  match ts with
  | dtok :: rest =>
    if dtok ∈ device_mnemonics then
      match build_opcode3 0xE (dev_tk_int dtok) op with
      | some w => some (rest, ops ++ [w])
      | none => none
    else none
  | [] => none

/-- `Assembler.assemble_drw`: consume `devX , NN` (the constant is *not*
masked; the builder's assert rejects values of 0x100 and above). -/
def assemble_drw (op1 : Nat) (ts : List String) (ops : List Nat) :
    Option (List String × List Nat) :=
  match ts with
  | dtok :: comma :: htok :: rest =>
    if dtok ∈ device_mnemonics ∧ comma = "," ∧ is_hex htok then
      match build_opcode3 op1 (dev_tk_int dtok) ((hexVal? htok).getD 0) with
      | some w => some (rest, ops ++ [w])
      | none => none
    else none
  | _ => none

/-- `Assembler.assemble_mem`: consume `rX`, emit `build_opcode((op1, X, op2))`. -/
def assemble_mem (op1 op2 : Nat) (ts : List String) (ops : List Nat) :
    Option (List String × List Nat) :=
  match ts with
  | rtok :: rest =>
    if rtok ∈ register_mnemonics then
      match build_opcode3 op1 (reg_tk_int rtok) op2 with
      | some w => some (rest, ops ++ [w])
      | none => none
    else none
  | [] => none

/-- `Assembler.assemble_rconst`: consume `rX , NN`, mask the constant to a
byte, emit `build_opcode((op1, X, NN))`. -/
def assemble_rconst (op1 : Nat) (ts : List String) (ops : List Nat) :
    Option (List String × List Nat) :=
  match ts with
  | rtok :: comma :: htok :: rest =>
    if rtok ∈ register_mnemonics ∧ comma = "," ∧ is_hex htok then
      match build_opcode3 op1 (reg_tk_int rtok) ((hexVal? htok).getD 0 &&& 0xFF) with
      | some w => some (rest, ops ++ [w])
      | none => none
    else none
  | _ => none

/-- `Assembler.assemble_shift`: consume `rX , N` (shift amount unmasked; the
4-tuple builder's assert rejects 16 and above). -/
def assemble_shift (op1 op2 : Nat) (ts : List String) (ops : List Nat) :
    Option (List String × List Nat) :=
  match ts with
  | rtok :: comma :: htok :: rest =>
    if rtok ∈ register_mnemonics ∧ comma = "," ∧ is_hex htok then
      match build_opcode4 op1 (reg_tk_int rtok) ((hexVal? htok).getD 0) op2 with
      | some w => some (rest, ops ++ [w])
      | none => none
    else none
  | _ => none

/-- `Assembler.assemble_cg` (shared by `goto` and `call`): if the label
already has a `label` entry, emit the opcode with its recorded value; if the
label is known but still unresolved, record a further pending patch at byte
address `2*len(ops) + 2` (the source comment says the `+2` accounts for the
just-emitted opcode, but the placeholder is emitted *after* this at byte
`2*len(ops)` — the recorded address is 2 bytes past it) and emit a
placeholder; if the label is new, record the pending patch at `2*len(ops)`
and emit a placeholder. -/
def assemble_cg (op1 : Nat) (ts : List String) (ops : List Nat) (st : Symtab) :
    Option (List String × List Nat × Symtab) :=
  match ts with
  | [] => none
  | lbl :: rest =>
    match stLookup st lbl with
    | some entries =>
      match findLabelEntry entries with
      | some v =>
        match build_opcode2 op1 v with
        | some w => some (rest, ops ++ [w], st)
        | none => none
      | none =>
        let st2 := stAppend st lbl (SymKind.goto, 2 * ops.length + 2)
        match build_opcode2 op1 0x000 with
        | some w => some (rest, ops ++ [w], st2)
        | none => none
    | none =>
      let st2 := stInsert st lbl [(SymKind.goto, 2 * ops.length)]
      match build_opcode2 op1 0x000 with
      | some w => some (rest, ops ++ [w], st2)
      | none => none

/-- The patch loop of `Assembler.assemble_label`: for each pending
`(goto, v)` entry, `ops[v >> 1] &= 0xF000`, the 12-bit overflow check
(`OverflowError` when `2*len(ops) > 0xFFE`), then
`ops[v >> 1] |= 2*len(ops) + 2`. Out-of-range patch indices raise IndexError
in Python, rendered as `none`; `label` entries are skipped. -/
def patchEntries (ops : List Nat) : List (SymKind × Nat) → Option (List Nat)
  | [] => some ops
  | (SymKind.label, _) :: es => patchEntries ops es
  | (SymKind.goto, v) :: es =>
    if h : v >>> 1 < ops.length then
      let masked := ops.get ⟨v >>> 1, h⟩ &&& 0xF000
      if 2 * ops.length > 0xFFE then none
      else patchEntries (ops.set (v >>> 1) (masked ||| (2 * ops.length + 2))) es
    else none

/-- `Assembler.assemble_label`: when the label is already in the symbol
table, run the patch loop (note the source appends no `label` entry in this
case); otherwise record `(label, 2*len(ops) + 2)`. -/
def assemble_label (lbl : String) (ops : List Nat) (st : Symtab) :
    Option (List Nat × Symtab) :=
  match stLookup st lbl with
  | some entries =>
    match patchEntries ops entries with
    | some ops2 => some (ops2, st)
    | none => none
  | none => some (ops, stInsert st lbl [(SymKind.label, 2 * ops.length + 2)])

/-- The dispatch ladder of `Assembler.assemble`, one loop iteration per
call; `fuel` only bounds the recursion (every iteration consumes at least the
mnemonic token, so `tokens.length + 1` is always enough). Mnemonic order and
emitter opcodes follow the source ladder. -/
def asmRun : Nat → List String → List Nat → Symtab → Option (List Nat × Symtab)
  | _, [], ops, st => some (ops, st)
  | 0, _ :: _, _, _ => none
  | fuel + 1, tok :: rest, ops, st =>
    if tok = "adc" then
      match assemble_rconst 0x7 rest ops with
      | some (ts2, ops2) => asmRun fuel ts2 ops2 st
      | none => none
    else if tok = "add" then
      match assemble_r2r 0x8 0x4 rest ops with
      | some (ts2, ops2) => asmRun fuel ts2 ops2 st
      | none => none
    else if tok = "and" then
      match assemble_r2r 0x8 0x2 rest ops with
      | some (ts2, ops2) => asmRun fuel ts2 ops2 st
      | none => none
    else if tok = "ar" then
      match assemble_r2r 0x8 0x0 rest ops with
      | some (ts2, ops2) => asmRun fuel ts2 ops2 st
      | none => none
    else if tok = "acr" then
      match assemble_rconst 0x6 rest ops with
      | some (ts2, ops2) => asmRun fuel ts2 ops2 st
      | none => none
    else if tok = "bar" then
      match assemble_rconst 0xC rest ops with
      | some (ts2, ops2) => asmRun fuel ts2 ops2 st
      | none => none
    else if tok = "call" then
      match assemble_cg 0x2 rest ops st with
      | some (ts2, ops2, st2) => asmRun fuel ts2 ops2 st2
      | none => none
    else if tok = "cpac" then
      match assemble_const 0xB rest ops with
      | some (ts2, ops2) => asmRun fuel ts2 ops2 st
      | none => none
    else if tok = "dpg" then
      match assemble_dp 0x01 rest ops with
      | some (ts2, ops2) => asmRun fuel ts2 ops2 st
      | none => none
    else if tok = "dps" then
      match assemble_dp 0x0 rest ops with
      | some (ts2, ops2) => asmRun fuel ts2 ops2 st
      | none => none
    else if tok = "goto" then
      match assemble_cg 0x1 rest ops st with
      | some (ts2, ops2, st2) => asmRun fuel ts2 ops2 st2
      | none => none
    else if tok = "hlt" then asmRun fuel rest (ops ++ [0x0000]) st
    else if tok = "ld" then
      match assemble_mem 0xE 0x65 rest ops with
      | some (ts2, ops2) => asmRun fuel ts2 ops2 st
      | none => none
    else if tok = "mpar" then
      match assemble_mem 0xE 0x1E rest ops with
      | some (ts2, ops2) => asmRun fuel ts2 ops2 st
      | none => none
    else if tok = "or" then
      match assemble_r2r 0x8 0x1 rest ops with
      | some (ts2, ops2) => asmRun fuel ts2 ops2 st
      | none => none
    else if tok = "rdb" then
      match assemble_drw 0xF rest ops with
      | some (ts2, ops2) => asmRun fuel ts2 ops2 st
      | none => none
    else if tok = "ret" then asmRun fuel rest (ops ++ [0x1EE]) st
    else if tok = "rmp" then
      match assemble_mem 0xE 0x1D rest ops with
      | some (ts2, ops2) => asmRun fuel ts2 ops2 st
      | none => none
    else if tok = "rsub" then
      match assemble_r2r 0x8 0x7 rest ops with
      | some (ts2, ops2) => asmRun fuel ts2 ops2 st
      | none => none
    else if tok = "shl" then
      match assemble_shift 0x8 0xE rest ops with
      | some (ts2, ops2) => asmRun fuel ts2 ops2 st
      | none => none
    else if tok = "shr" then
      match assemble_shift 0x8 0x6 rest ops with
      | some (ts2, ops2) => asmRun fuel ts2 ops2 st
      | none => none
    else if tok = "smp" then
      match assemble_const 0xA rest ops with
      | some (ts2, ops2) => asmRun fuel ts2 ops2 st
      | none => none
    else if tok = "snec" then
      match assemble_rconst 0x3 rest ops with
      | some (ts2, ops2) => asmRun fuel ts2 ops2 st
      | none => none
    else if tok = "snuec" then
      match assemble_rconst 0x4 rest ops with
      | some (ts2, ops2) => asmRun fuel ts2 ops2 st
      | none => none
    else if tok = "sne" then
      match assemble_r2r 0x5 0x0 rest ops with
      | some (ts2, ops2) => asmRun fuel ts2 ops2 st
      | none => none
    else if tok = "snue" then
      match assemble_r2r 0x9 0x0 rest ops with
      | some (ts2, ops2) => asmRun fuel ts2 ops2 st
      | none => none
    else if tok = "spl" then
      match assemble_mem 0xE 0x55 rest ops with
      | some (ts2, ops2) => asmRun fuel ts2 ops2 st
      | none => none
    else if tok = "sub" then
      match assemble_r2r 0x8 0x5 rest ops with
      | some (ts2, ops2) => asmRun fuel ts2 ops2 st
      | none => none
    else if tok = "wrb" then
      match assemble_drw 0xD rest ops with
      | some (ts2, ops2) => asmRun fuel ts2 ops2 st
      | none => none
    else if tok = "xch" then
      match assemble_r2r 0x8 0xF rest ops with
      | some (ts2, ops2) => asmRun fuel ts2 ops2 st
      | none => none
    else if tok = "xor" then
      match assemble_r2r 0x8 0x3 rest ops with
      | some (ts2, ops2) => asmRun fuel ts2 ops2 st
      | none => none
    else
      match rest with
      | colon :: rest2 =>
        if colon = ":" then
          match assemble_label tok ops st with
          | some (ops2, st2) => asmRun fuel rest2 ops2 st2
          | none => none
        else none
      | [] => none

/-- `Assembler.assemble`: reserve the length-header word at index 0, run the
token loop, then overwrite the header with `2*len(ops) - 2`. (The source
performs no end-of-assembly check for unresolved `goto` entries.) -/
def assemble (tokens : List String) : Option (List Nat) :=
  match asmRun (tokens.length + 1) tokens [0x0000] [] with
  | some (ops, _) => some (ops.set 0 (2 * ops.length - 2))
  | none => none

/-- The source program of scenario S4 in the spec. -/
def srcS4 : String := "goto end\nacr r0, 1\nend:\nhlt"

/-- Constructor for concrete VM states with no devices attached. -/
def mkChip (m : List Nat) (r : Nat → Nat) (stk : List Nat) (pc i : Nat) : Chip64 :=
  { memory := m, registers := r, stack := stk, code_ptr := pc, memory_ptr := i,
    alert := false, devices := fun _ => none }

/-- A 4096-byte RAM image holding one opcode at address 0. -/
def ram4096 (b0 b1 : Nat) : List Nat := b0 :: b1 :: List.replicate 4094 0

/-- State about to execute `CALL 0x100` (opcode `0x2100`) at `pc = 0`. -/
def exC1 : Chip64 := mkChip (ram4096 0x21 0x00) (fun _ => 0) [] 0 0

/-- State about to execute `RET` (opcode `0x01EE`) with return address 6 on
the stack. -/
def exC1r : Chip64 := mkChip (ram4096 0x01 0xEE) (fun _ => 0) [6] 0 0

/-- State about to execute `ADD r0, r1` (opcode `0x8014`) with
`r0 = 0xFFFF`, `r1 = 2` (a wrapping sum). -/
def exC4w : Chip64 :=
  mkChip (ram4096 0x80 0x14) (fun n => if n = 0 then 0xFFFF else if n = 1 then 2 else 0) [] 0 0

/-- State about to execute `SUB r0, r1` (opcode `0x8015`) with `r0 = 5`,
`r1 = 7` (a borrowing difference). -/
def exC4s : Chip64 :=
  mkChip (ram4096 0x80 0x15) (fun n => if n = 0 then 5 else if n = 1 then 7 else 0) [] 0 0

/-- State about to execute `ADD rF, rF` (opcode `0x8FF4`) with `rF = 5`:
the destination write lands on the flag register. -/
def exC4c : Chip64 :=
  mkChip (ram4096 0x8F 0xF4) (fun n => if n = 15 then 5 else 0) [] 0 0

/-- State about to execute `RSUB r1, r2` (opcode `0x8127`) with `r1 = 5`,
`r2 = 9`. -/
def exC5w : Chip64 :=
  mkChip (ram4096 0x81 0x27) (fun n => if n = 1 then 5 else if n = 2 then 9 else 0) [] 0 0

/-- State about to execute `RSUB rF, r0` (opcode `0x8F07`) with `r0 = 7`,
`rF = 5`: the subtraction reads the freshly written flag. -/
def exC5c : Chip64 :=
  mkChip (ram4096 0x8F 0x07) (fun n => if n = 0 then 7 else if n = 15 then 5 else 0) [] 0 0

/-- A `MemoryDevice` whose first two bytes are `0xAB`, `0xCD`. -/
def devC6 : MemoryDevice := { ptr := 0, memory := 0xAB :: 0xCD :: List.replicate 65534 0 }

/-- State about to execute `RDB`-style opcode `0xD002` (read 2 bytes from
device 0 into RAM at `i = 0x100`), with `devC6` present in slot 0. -/
def exC6 : Chip64 :=
  { memory := ram4096 0xD0 0x02, registers := fun _ => 0, stack := [],
    code_ptr := 0, memory_ptr := 0x100, alert := false,
    devices := fun n => if n = 0 then some devC6 else none }

/-- State about to fetch the unknown opcode `0x0100` (top nibble 0, neither
`HLT` nor `RET`), with `alert` clear. -/
def exC7 : Chip64 := mkChip (ram4096 0x01 0x00) (fun _ => 0) [] 0 0

/-- State about to execute `SHR r3, 0` (opcode `0x8306`) with `r3 = 7`,
`rF = 5`. -/
def exC8w : Chip64 :=
  mkChip (ram4096 0x83 0x06) (fun n => if n = 3 then 7 else if n = 15 then 5 else 0) [] 0 0

/-- State about to execute `SHR rF, 0` (opcode `0x8F06`) with `rF = 5`. -/
def exC8c : Chip64 :=
  mkChip (ram4096 0x8F 0x06) (fun n => if n = 15 then 5 else 0) [] 0 0

/-- A fresh 64 KiB `MemoryDevice` with its cursor at 3. -/
def exD9 : MemoryDevice := { ptr := 3, memory := List.replicate 65536 0 }

/-- State about to execute `SNEC r0, 5` (opcode `0x3005`) with `r0 = 5`
(the skip is taken). -/
def exC10w : Chip64 :=
  mkChip (ram4096 0x30 0x05) (fun n => if n = 0 then 5 else 0) [] 0 0

/-- Assembler state used to exercise `assemble_label`: a header word plus one
placeholder `GOTO` emitted at byte 2. -/
def opsW : List Nat := [0x0000, 0x1000]

/-- Symbol table holding a single pending forward reference for `end`,
recorded at patch address 2. -/
def stW : Symtab := [("end", [(SymKind.goto, 2)])]

/-!
Helper lemmas: lifting a dispatch result through one loop iteration, the
dispatch ladder evaluated at each relevant top nibble, index lemmas for
`listWriteAt`, and the two bit-mask identities behind back-patching.
-/

/-- One loop iteration in terms of `dispatch`, for opcodes other than `HLT`
and `RET`. -/
theorem step_run (rnd : Nat) (s : Chip64) (hb lb : Nat) (s2 : Chip64) (adv : Bool)
    (h1 : s.memory.get? s.code_ptr = some hb)
    (h2 : s.memory.get? (s.code_ptr + 1) = some lb)
    (hop0 : concat hb lb ≠ 0x0000)
    (hop1 : concat hb lb ≠ 0x01EE)
    (hd : dispatch rnd (concat hb lb) s = some (s2, adv)) :
    step rnd s = Outcome.stepped
      (if adv then { s2 with code_ptr := s2.code_ptr + 2 } else s2) := by
  simp only [step, fetch, h1, h2]
  rw [if_neg hop0, if_neg hop1]
  show (match dispatch rnd (concat hb lb) s with
    | none => Outcome.fault
    | some (s2, adv) =>
      Outcome.stepped (if adv then { s2 with code_ptr := s2.code_ptr + 2 } else s2)) = _
  rw [hd]

/-- Dispatch of a `2NNN` opcode selects `subroutine_call` and suppresses the
automatic advance. -/
theorem dispatch_nib3_2 (rnd op : Nat) (s : Chip64) (h : get_nibble op 3 = 2) :
    dispatch rnd op s = some (subroutine_call (op &&& 0xFFF) s, false) := by
  simp only [dispatch, h]
  norm_num

/-- Dispatch of a `3XNN` opcode selects `skip_next_if_equal_const`. -/
theorem dispatch_nib3_3 (rnd op : Nat) (s : Chip64) (h : get_nibble op 3 = 3) :
    dispatch rnd op s =
      some (skip_next_if_equal_const (get_nibble op 2) (low_byte op) s, true) := by
  simp only [dispatch, h]
  norm_num

/-- Dispatch of a `4XNN` opcode selects `skip_next_if_unequal_const`. -/
theorem dispatch_nib3_4 (rnd op : Nat) (s : Chip64) (h : get_nibble op 3 = 4) :
    dispatch rnd op s =
      some (skip_next_if_unequal_const (get_nibble op 2) (low_byte op) s, true) := by
  simp only [dispatch, h]
  norm_num

/-- Dispatch of a `5XYN` opcode selects `skip_next_if_equal` (the source
checks only the top nibble). -/
theorem dispatch_nib3_5 (rnd op : Nat) (s : Chip64) (h : get_nibble op 3 = 5) :
    dispatch rnd op s =
      some (skip_next_if_equal (get_nibble op 2) (get_nibble op 1) s, true) := by
  simp only [dispatch, h]
  norm_num

/-- Dispatch of a `9XYN` opcode selects `skip_next_if_unequal`. -/
theorem dispatch_nib3_9 (rnd op : Nat) (s : Chip64) (h : get_nibble op 3 = 9) :
    dispatch rnd op s =
      some (skip_next_if_unequal (get_nibble op 2) (get_nibble op 1) s, true) := by
  simp only [dispatch, h]
  norm_num

/-- Dispatch of an `8XY4` opcode selects `add_registers`. -/
theorem dispatch_add (rnd op : Nat) (s : Chip64)
    (h : get_nibble op 3 = 8) (h0 : get_nibble op 0 = 4) :
    dispatch rnd op s =
      some (add_registers (get_nibble op 2) (get_nibble op 1) s, true) := by
  simp only [dispatch, h, h0]
  norm_num

/-- Dispatch of an `8XY5` opcode selects `subtract_registers`. -/
theorem dispatch_sub (rnd op : Nat) (s : Chip64)
    (h : get_nibble op 3 = 8) (h0 : get_nibble op 0 = 5) :
    dispatch rnd op s =
      some (subtract_registers (get_nibble op 2) (get_nibble op 1) s, true) := by
  simp only [dispatch, h, h0]
  norm_num

/-- Dispatch of an `8XY7` opcode (RSUB) reuses `subtract_registers` with the
register nibbles swapped, exactly as the source ladder does. -/
theorem dispatch_rsub (rnd op : Nat) (s : Chip64)
    (h : get_nibble op 3 = 8) (h0 : get_nibble op 0 = 7) :
    dispatch rnd op s =
      some (subtract_registers (get_nibble op 1) (get_nibble op 2) s, true) := by
  simp only [dispatch, h, h0]
  norm_num

/-- Dispatch of an `8XY6` opcode selects `bitwise_right_shift`. -/
theorem dispatch_shr (rnd op : Nat) (s : Chip64)
    (h : get_nibble op 3 = 8) (h0 : get_nibble op 0 = 6) :
    dispatch rnd op s =
      some (bitwise_right_shift (get_nibble op 2) (get_nibble op 1) s, true) := by
  simp only [dispatch, h, h0]
  norm_num

/-- Dispatch of an `8XYE` opcode selects `bitwise_left_shift`. -/
theorem dispatch_shl (rnd op : Nat) (s : Chip64)
    (h : get_nibble op 3 = 8) (h0 : get_nibble op 0 = 0xE) :
    dispatch rnd op s =
      some (bitwise_left_shift (get_nibble op 2) (get_nibble op 1) s, true) := by
  simp only [dispatch, h, h0]
  norm_num

/-- `listWriteAt` never touches indices below the write position. -/
theorem listWriteAt_get?_lt (bs : List Nat) : ∀ (m : List Nat) (p i : Nat), i < p →
    (listWriteAt m p bs).get? i = m.get? i := by
  induction bs with
  | nil => intro m p i _; rfl
  | cons b bs ih =>
    intro m p i hi
    rw [listWriteAt, ih (m.set p b) (p + 1) i (by omega),
      List.get?_set_ne _ _ (by omega)]

/-- Inside the written window, `listWriteAt` stores exactly the source
bytes. -/
theorem listWriteAt_get?_in (bs : List Nat) : ∀ (m : List Nat) (p i : Nat),
    i < bs.length → p + bs.length ≤ m.length →
    (listWriteAt m p bs).get? (p + i) = bs.get? i := by
  induction bs with
  | nil => intro m p i hi _; exact absurd hi (by simp)
  | cons b bs ih =>
    intro m p i hi hlen
    match i with
    | 0 =>
      show (listWriteAt (m.set p b) (p + 1) bs).get? p = some b
      rw [listWriteAt_get?_lt bs (m.set p b) (p + 1) p (by omega)]
      exact List.get?_set_eq_of_lt _ (by simp at hlen; omega)
    | Nat.succ j =>
      show (listWriteAt (m.set p b) (p + 1) bs).get? (p + (j + 1)) = bs.get? j
      rw [show p + (j + 1) = (p + 1) + j from by omega]
      exact ih (m.set p b) (p + 1) j (by simp at hi; omega) (by simp at hlen ⊢; omega)

/-- Back-patching with `|=` after `&= 0xF000` leaves exactly the patch value
in the low 12 bits, provided the patch value fits in 12 bits. -/
theorem or_mask_low12 (w h : Nat) (hh : h < 4096) :
    ((w &&& 0xF000) ||| h) &&& 0xFFF = h := by
  apply Nat.eq_of_testBit_eq
  intro i
  simp only [Nat.testBit_and, Nat.testBit_or]
  by_cases hi : i < 12
  · have hm : (0xF000 : Nat).testBit i = false := by
      rw [show (0xF000 : Nat) = 15 <<< 12 from rfl]
      simp only [Nat.testBit_shiftLeft]
      rw [decide_eq_false (by omega)]
      simp
    have hf : (0xFFF : Nat).testBit i = true := by
      rw [show (0xFFF : Nat) = 2 ^ 12 - 1 from rfl, Nat.testBit_two_pow_sub_one]
      simp [hi]
    simp [hm, hf]
  · have hf : (0xFFF : Nat).testBit i = false := by
      rw [show (0xFFF : Nat) = 2 ^ 12 - 1 from rfl, Nat.testBit_two_pow_sub_one]
      simp [hi]
    have hhb : h.testBit i = false := by
      apply Nat.testBit_lt_two_pow
      have h2 : (2 : Nat) ^ 12 ≤ 2 ^ i := Nat.pow_le_pow_right (by norm_num) (by omega)
      norm_num at h2
      omega
    simp [hf, hhb]

/-- Back-patching preserves the top four bits of a 16-bit opcode word. -/
theorem or_mask_top4 (w h : Nat) (hw : w < 65536) (hh : h < 4096) :
    ((w &&& 0xF000) ||| h) >>> 12 = w >>> 12 := by
  apply Nat.eq_of_testBit_eq
  intro j
  simp only [Nat.testBit_shiftRight, Nat.testBit_or, Nat.testBit_and]
  have hhb : h.testBit (12 + j) = false := by
    apply Nat.testBit_lt_two_pow
    have h2 : (2 : Nat) ^ 12 ≤ 2 ^ (12 + j) := Nat.pow_le_pow_right (by norm_num) (by omega)
    norm_num at h2
    omega
  by_cases hj : j < 4
  · have hm : (0xF000 : Nat).testBit (12 + j) = true := by
      rw [show (0xF000 : Nat) = 15 <<< 12 from rfl]
      simp only [Nat.testBit_shiftLeft]
      rw [decide_eq_true (by omega : 12 + j ≥ 12), show 12 + j - 12 = j from by omega,
        show (15 : Nat) = 2 ^ 4 - 1 from rfl, Nat.testBit_two_pow_sub_one]
      simp [hj]
    simp [hm, hhb]
  · have hwb : w.testBit (12 + j) = false := by
      apply Nat.testBit_lt_two_pow
      have h2 : (2 : Nat) ^ 16 ≤ 2 ^ (12 + j) := Nat.pow_le_pow_right (by norm_num) (by omega)
      norm_num at h2
      omega
    have hm : (0xF000 : Nat).testBit (12 + j) = false := by
      rw [show (0xF000 : Nat) = 15 <<< 12 from rfl]
      simp only [Nat.testBit_shiftLeft]
      rw [decide_eq_true (by omega : 12 + j ≥ 12), show 12 + j - 12 = j from by omega,
        show (15 : Nat) = 2 ^ 4 - 1 from rfl, Nat.testBit_two_pow_sub_one]
      simp [hj]
    simp [hwb, hhb, hm]

/-!
Claim theorems.
-/

/-- C1, counterexample: executing `CALL 0x100` from `pc = 0` leaves the
CALL's own address 0 on the stack, not the claimed `pc + 2 = 2` — the claim
that CALL "pushes the address of the instruction following the CALL (the
CALL's pc + 2)" is false at this input. -/
theorem c1_counterexample :
    (outState (step 0 exC1)).map (fun t => t.stack) = some [0] ∧
    ¬([(0 : Nat)] = [0 + 2]) :=
  ⟨rfl, by decide⟩

/-- C1, amended: CALL (`2NNN`) pushes the CALL's own `pc` (not `pc + 2`) and
sets `pc ← NNN`; RET (`01EE`) pops that address and, because the loop still
applies its normal `+2` advance after the return handler, execution resumes
at the instruction after the CALL. -/
theorem c1_amended :
    (∀ (rnd : Nat) (s : Chip64) (hb lb : Nat),
      s.memory.get? s.code_ptr = some hb →
      s.memory.get? (s.code_ptr + 1) = some lb →
      get_nibble (concat hb lb) 3 = 2 →
      step rnd s = Outcome.stepped
        { s with stack := s.code_ptr :: s.stack, code_ptr := concat hb lb &&& 0xFFF }) ∧
    (∀ (rnd : Nat) (s : Chip64) (a : Nat) (rest : List Nat),
      s.memory.get? s.code_ptr = some 0x01 →
      s.memory.get? (s.code_ptr + 1) = some 0xEE →
      s.stack = a :: rest →
      step rnd s = Outcome.stepped { s with code_ptr := a + 2, stack := rest }) := by
  constructor
  · intro rnd s hb lb h1 h2 h3
    have hop0 : concat hb lb ≠ 0x0000 := fun h => absurd (h ▸ h3) (by decide)
    have hop1 : concat hb lb ≠ 0x01EE := fun h => absurd (h ▸ h3) (by decide)
    rw [step_run rnd s hb lb _ _ h1 h2 hop0 hop1 (dispatch_nib3_2 rnd _ s h3)]
    simp [subroutine_call]
  · intro rnd s a rest h1 h2 h3
    have hc : concat 0x01 0xEE = 0x01EE := by decide
    have hn3 : get_nibble 0x01EE 3 = 0 := by decide
    simp only [step, fetch, h1, h2, hc]
    rw [if_neg (by decide : ¬((0x01EE : Nat) = 0x0000))]
    simp only [if_true, subroutine_return, h3, dispatch, hn3]
    norm_num

/-- C1, witness: the CALL part at `exC1` (CALL `0x100` from `pc = 0`) and the
RET part at `exC1r` (RET with 6 on the stack resumes at 8). -/
theorem c1_amended_witness :
    step 0 exC1 = Outcome.stepped { exC1 with stack := [0], code_ptr := 0x100 } ∧
    step 0 exC1r = Outcome.stepped { exC1r with code_ptr := 8, stack := [] } :=
  ⟨c1_amended.1 0 exC1 0x21 0x00 rfl rfl (by decide),
   c1_amended.2 0 exC1r 6 [] rfl rfl rfl⟩

/-- C2, counterexample: assembling `goto end\nacr r0, 1\nend:\nhlt` does not
produce `[0x1006, 0x6001, 0x0000]`: the assembler prepends a code-length
header word and patches the GOTO with `2*len(ops) + 2 = 8`, two bytes past
the label's byte offset 6. -/
theorem c2_counterexample :
    assemble (tokenise srcS4) = some [0x0006, 0x1008, 0x6001, 0x0000] ∧
    (some [0x0006, 0x1008, 0x6001, 0x0000] : Option (List Nat)) ≠
      some [0x1006, 0x6001, 0x0000] :=
  ⟨by decide, by decide⟩

/-- C2, amended: assembling `goto end\nacr r0, 1\nend:\nhlt` produces exactly
`[0x0006, 0x1008, 0x6001, 0x0000]` — a length-header word `2*len(ops) - 2 = 6`
at index 0, the forward-referenced GOTO back-patched with
`2*len(ops) + 2 = 8` (the byte offset of the label plus 2, with the GOTO's
top nibble preserved), the `acr`, and the `hlt`. -/
theorem c2_amended : assemble (tokenise srcS4) = some [0x0006, 0x1008, 0x6001, 0x0000] := by
  decide

/-- C3, counterexample: in the same successfully assembled program, the
patched GOTO word is `0x1008`, whose low 12 bits are 8, while the label's
byte offset is 6 (the `hlt` the label precedes is the word at index 3, byte
offset `2*3 = 6`) — so the low 12 bits of a patched instruction do not equal
the label's byte offset. -/
theorem c3_counterexample :
    (assemble (tokenise srcS4)).map (fun ops => ops.getD 1 0 &&& 0xFFF) = some 8 ∧
    (assemble (tokenise srcS4)).map (fun ops => ops.getD 3 99) = some 0x0000 ∧
    (8 : Nat) ≠ 2 * 3 :=
  ⟨by decide, by decide, by decide⟩

/-- C3, amended: when a label with exactly one pending forward reference
(recorded at patch address `v`, the byte address of the placeholder) is
defined, `assemble_label` patches `ops[v >> 1]`: the top 4 bits (the
GOTO/CALL opcode nibble) are preserved and the low 12 bits are set to
`2*len(ops) + 2` — the label's byte offset `2*len(ops)` *plus 2*, not the
byte offset itself (second and later pending references are even recorded 2
bytes past their placeholder, so they patch the wrong word). -/
theorem c3_amended (lbl : String) (ops : List Nat) (st : Symtab) (v w : Nat)
    (hlook : stLookup st lbl = some [(SymKind.goto, v)])
    (hv : v >>> 1 < ops.length)
    (hw : ops.getD (v >>> 1) 0 = w)
    (hwb : w < 65536)
    (hfit : 2 * ops.length + 2 < 4096) :
    assemble_label lbl ops st =
      some (ops.set (v >>> 1) ((w &&& 0xF000) ||| (2 * ops.length + 2)), st) ∧
    ((w &&& 0xF000) ||| (2 * ops.length + 2)) &&& 0xFFF = 2 * ops.length + 2 ∧
    ((w &&& 0xF000) ||| (2 * ops.length + 2)) >>> 12 = w >>> 12 := by
  have hget : ops.get ⟨v >>> 1, hv⟩ = w := by
    rw [← hw, List.getD_eq_get?, List.get?_eq_get hv]
    rfl
  refine ⟨?_, or_mask_low12 w _ (by omega), or_mask_top4 w _ hwb (by omega)⟩
  rw [assemble_label, hlook]
  simp only [patchEntries, dif_pos hv, hget]
  rw [if_neg (by omega : ¬(2 * ops.length > 0xFFE))]

/-- C3, witness: patching the pending reference of `end` in the two-word
state `opsW` rewrites word 1 to carry low bits `2*2 + 2 = 6` and keeps its
top nibble `0x1`. -/
theorem c3_amended_witness :
    assemble_label ("end") opsW stW =
      some (opsW.set (2 >>> 1) ((0x1000 &&& 0xF000) ||| (2 * opsW.length + 2)), stW) ∧
    ((0x1000 &&& 0xF000) ||| (2 * opsW.length + 2)) &&& 0xFFF = 2 * opsW.length + 2 ∧
    ((0x1000 &&& 0xF000) ||| (2 * opsW.length + 2)) >>> 12 = 0x1000 >>> 12 :=
  c3_amended ("end") opsW stW 2 0x1000 (by decide) (by decide) (by decide)
    (by decide) (by decide)

/-- C4, counterexample: executing `ADD rF, rF` (opcode `0x8FF4`) with
`rF = 5` leaves `reg[0xF] = 10` — the destination write overwrites the
just-written flag, so ADD with `X = 0xF` does not leave `reg[0xF]` equal to
0 or 1 as claimed. -/
theorem c4_counterexample :
    (outState (step 0 exC4c)).map (fun t => t.registers 0xF) = some 10 ∧
    ¬((10 : Nat) = 0 ∨ (10 : Nat) = 1) :=
  ⟨rfl, by decide⟩

/-- C4, amended: for destination register `X ≠ 0xF` (the flag register),
ADD (`8XY4`) and SUB (`8XY5`) leave `reg[0xF]` equal to 0 or 1 — ADD sets it
to 1 exactly when `Vx + Vy` wrapped past `2^16`, SUB exactly when
`Vx ≥ Vy`; when `X = 0xF` the destination write clobbers the flag
(see the counterexample). -/
theorem c4_amended :
    (∀ (rnd : Nat) (s : Chip64) (hb lb : Nat),
      s.memory.get? s.code_ptr = some hb →
      s.memory.get? (s.code_ptr + 1) = some lb →
      get_nibble (concat hb lb) 3 = 8 →
      get_nibble (concat hb lb) 0 = 4 →
      get_nibble (concat hb lb) 2 ≠ 0xF →
      s.registers (get_nibble (concat hb lb) 2) < 65536 →
      s.registers (get_nibble (concat hb lb) 1) < 65536 →
      ∃ t, step rnd s = Outcome.stepped t ∧
        (t.registers 0xF = 0 ∨ t.registers 0xF = 1) ∧
        (t.registers 0xF = 1 ↔
          65536 ≤ s.registers (get_nibble (concat hb lb) 2) +
            s.registers (get_nibble (concat hb lb) 1))) ∧
    (∀ (rnd : Nat) (s : Chip64) (hb lb : Nat),
      s.memory.get? s.code_ptr = some hb →
      s.memory.get? (s.code_ptr + 1) = some lb →
      get_nibble (concat hb lb) 3 = 8 →
      get_nibble (concat hb lb) 0 = 5 →
      get_nibble (concat hb lb) 2 ≠ 0xF →
      ∃ t, step rnd s = Outcome.stepped t ∧
        (t.registers 0xF = 0 ∨ t.registers 0xF = 1) ∧
        (t.registers 0xF = 1 ↔
          s.registers (get_nibble (concat hb lb) 1) ≤
            s.registers (get_nibble (concat hb lb) 2))) := by
  constructor
  · intro rnd s hb lb h1 h2 h3 h0 hX hrx hry
    have hop0 : concat hb lb ≠ 0x0000 := fun h => absurd (h ▸ h3) (by decide)
    have hop1 : concat hb lb ≠ 0x01EE := fun h => absurd (h ▸ h3) (by decide)
    have h15 : ¬((0xF : Nat) = get_nibble (concat hb lb) 2) := fun h => hX h.symm
    rw [step_run rnd s hb lb _ _ h1 h2 hop0 hop1 (dispatch_add rnd _ s h3 h0)]
    refine ⟨_, rfl, ?_, ?_⟩
    · by_cases hc : (s.registers (get_nibble (concat hb lb) 2) +
          s.registers (get_nibble (concat hb lb) 1)) % 65536 <
          s.registers (get_nibble (concat hb lb) 2) <;>
        simp [add_registers, updReg, h15, hc]
    · by_cases hc : (s.registers (get_nibble (concat hb lb) 2) +
          s.registers (get_nibble (concat hb lb) 1)) % 65536 <
          s.registers (get_nibble (concat hb lb) 2) <;>
        simp [add_registers, updReg, h15, hc] <;> omega
  · intro rnd s hb lb h1 h2 h3 h0 hX
    have hop0 : concat hb lb ≠ 0x0000 := fun h => absurd (h ▸ h3) (by decide)
    have hop1 : concat hb lb ≠ 0x01EE := fun h => absurd (h ▸ h3) (by decide)
    have h15 : ¬((0xF : Nat) = get_nibble (concat hb lb) 2) := fun h => hX h.symm
    rw [step_run rnd s hb lb _ _ h1 h2 hop0 hop1 (dispatch_sub rnd _ s h3 h0)]
    refine ⟨_, rfl, ?_, ?_⟩
    · by_cases hc : s.registers (get_nibble (concat hb lb) 2) ≥
          s.registers (get_nibble (concat hb lb) 1) <;>
        simp [subtract_registers, updReg, h15, hc]
    · by_cases hc : s.registers (get_nibble (concat hb lb) 2) ≥
          s.registers (get_nibble (concat hb lb) 1) <;>
        simp [subtract_registers, updReg, h15, hc] <;> omega

/-- C4, witness: the ADD part at `exC4w` (`ADD r0, r1` with
`r0 = 0xFFFF`, `r1 = 2`, which wraps) and the SUB part at `exC4s`
(`SUB r0, r1` with `r0 = 5 < r1 = 7`, which borrows). -/
theorem c4_amended_witness :
    (∃ t, step 0 exC4w = Outcome.stepped t ∧
      (t.registers 0xF = 0 ∨ t.registers 0xF = 1) ∧
      (t.registers 0xF = 1 ↔
        65536 ≤ exC4w.registers (get_nibble (concat 0x80 0x14) 2) +
          exC4w.registers (get_nibble (concat 0x80 0x14) 1))) ∧
    (∃ t, step 0 exC4s = Outcome.stepped t ∧
      (t.registers 0xF = 0 ∨ t.registers 0xF = 1) ∧
      (t.registers 0xF = 1 ↔
        exC4s.registers (get_nibble (concat 0x80 0x15) 1) ≤
          exC4s.registers (get_nibble (concat 0x80 0x15) 2))) :=
  ⟨c4_amended.1 0 exC4w 0x80 0x14 rfl rfl (by decide) (by decide) (by decide)
      (by decide) (by decide),
   c4_amended.2 0 exC4s 0x80 0x15 rfl rfl (by decide) (by decide) (by decide)⟩

/-- C5, counterexample: executing RSUB with `X = 0xF` (opcode `0x8F07`,
`r0 = 7`, `rF = 5`) yields `r0 = 6` instead of the claimed
`(Vy - Vx) mod 2^16 = 2` (the handler writes the no-borrow flag into `rF`
first, then subtracts that flag), and `Vx` (= `rF`) is changed from 5 to 1
even though `X ≠ Y`. -/
theorem c5_counterexample :
    (outState (step 0 exC5c)).map (fun t => (t.registers 0, t.registers 0xF)) =
      some (6, 1) ∧
    (7 + 65536 - 5) % 65536 = 2 ∧ ¬((6 : Nat) = 2) ∧ ¬((1 : Nat) = 5) :=
  ⟨rfl, by decide, by decide, by decide⟩

/-- C5, amended: for `X ≠ 0xF` and `Y ≠ 0xF`, RSUB (`8XY7`) sets
`Vy ← (Vy - Vx) mod 2^16` and `reg[0xF] ← 1` iff `Vy ≥ Vx` (exactly SUB with
the operand roles exchanged, which is how the source dispatches it), the flag
is 0 or 1, and `Vx` is unchanged when `X ≠ Y`; when either index is `0xF`
the flag write interferes (see the counterexample). -/
theorem c5_amended (rnd : Nat) (s : Chip64) (hb lb : Nat)
    (h1 : s.memory.get? s.code_ptr = some hb)
    (h2 : s.memory.get? (s.code_ptr + 1) = some lb)
    (h3 : get_nibble (concat hb lb) 3 = 8)
    (h0 : get_nibble (concat hb lb) 0 = 7)
    (hX : get_nibble (concat hb lb) 2 ≠ 0xF)
    (hY : get_nibble (concat hb lb) 1 ≠ 0xF) :
    ∃ t, step rnd s = Outcome.stepped t ∧
      t.registers (get_nibble (concat hb lb) 1) =
        (s.registers (get_nibble (concat hb lb) 1) + 65536 -
          s.registers (get_nibble (concat hb lb) 2)) % 65536 ∧
      (t.registers 0xF = 1 ↔
        s.registers (get_nibble (concat hb lb) 2) ≤
          s.registers (get_nibble (concat hb lb) 1)) ∧
      (t.registers 0xF = 0 ∨ t.registers 0xF = 1) ∧
      (get_nibble (concat hb lb) 2 ≠ get_nibble (concat hb lb) 1 →
        t.registers (get_nibble (concat hb lb) 2) =
          s.registers (get_nibble (concat hb lb) 2)) := by
  have hop0 : concat hb lb ≠ 0x0000 := fun h => absurd (h ▸ h3) (by decide)
  have hop1 : concat hb lb ≠ 0x01EE := fun h => absurd (h ▸ h3) (by decide)
  have h15Y : ¬((0xF : Nat) = get_nibble (concat hb lb) 1) := fun h => hY h.symm
  rw [step_run rnd s hb lb _ _ h1 h2 hop0 hop1 (dispatch_rsub rnd _ s h3 h0)]
  refine ⟨_, rfl, ?_, ?_, ?_, ?_⟩
  · simp [subtract_registers, updReg, hY, hX]
  · by_cases hc : s.registers (get_nibble (concat hb lb) 1) ≥
        s.registers (get_nibble (concat hb lb) 2) <;>
      simp [subtract_registers, updReg, h15Y, hc] <;> omega
  · by_cases hc : s.registers (get_nibble (concat hb lb) 1) ≥
        s.registers (get_nibble (concat hb lb) 2) <;>
      simp [subtract_registers, updReg, h15Y, hc]
  · intro hne
    have hne2 : ¬(get_nibble (concat hb lb) 2 = get_nibble (concat hb lb) 1) := hne
    simp [subtract_registers, updReg, hne2, hX]

/-- C5, witness: RSUB at `exC5w` (`RSUB r1, r2` with `r1 = 5`, `r2 = 9`). -/
theorem c5_amended_witness :
    ∃ t, step 0 exC5w = Outcome.stepped t ∧
      t.registers (get_nibble (concat 0x81 0x27) 1) =
        (exC5w.registers (get_nibble (concat 0x81 0x27) 1) + 65536 -
          exC5w.registers (get_nibble (concat 0x81 0x27) 2)) % 65536 ∧
      (t.registers 0xF = 1 ↔
        exC5w.registers (get_nibble (concat 0x81 0x27) 2) ≤
          exC5w.registers (get_nibble (concat 0x81 0x27) 1)) ∧
      (t.registers 0xF = 0 ∨ t.registers 0xF = 1) ∧
      (get_nibble (concat 0x81 0x27) 2 ≠ get_nibble (concat 0x81 0x27) 1 →
        t.registers (get_nibble (concat 0x81 0x27) 2) =
          exC5w.registers (get_nibble (concat 0x81 0x27) 2)) :=
  c5_amended 0 exC5w 0x81 0x27 rfl rfl (by decide) (by decide) (by decide) (by decide)

/-- C6, theorem at the failing input: executing opcode `0xD002` with a
present `MemoryDevice` at slot 0 whose first bytes are `0xAB, 0xCD` and
`i = 0x100` steps normally but leaves the VM memory completely unchanged —
`ram[0x100]` and `ram[0x101]` are still 0, not the bytes the device returned:
the source's copy loop `for ptr, value in zip(...): ptr = value` only
rebinds its loop variable. -/
theorem c6_rdb_eval :
    outState (step 0 exC6) = some { exC6 with code_ptr := 2 } ∧
    mdRead devC6 2 = [0xAB, 0xCD] ∧
    (outState (step 0 exC6)).map
      (fun t => (t.memory.getD 0x100 99, t.memory.getD 0x101 99)) = some (0, 0) ∧
    ¬((0 : Nat) = 0xAB) :=
  ⟨rfl, rfl, rfl, by decide⟩

/-- C7, theorem at the failing input: fetching the unknown opcode `0x0100`
(top nibble 0, neither `0x0000` nor `0x01EE`, matching no dispatch branch)
advances `pc` to 2 and the loop continues — but `alert` is still `false`:
`chip64.py`'s execute ladder has no unknown-opcode branch and never writes
`alert` (the claim, the spec's §7 and the unreachable `else` of the
non-parsing `chip16.py` all expect `alert = true`). -/
theorem c7_unknown_eval :
    outState (step 0 exC7) = some { exC7 with code_ptr := 2 } ∧
    (outState (step 0 exC7)).map (fun t => t.alert) = some false ∧
    exC7.alert = false :=
  ⟨rfl, rfl, rfl⟩

/-- C8, counterexample: `SHR rF, 0` (opcode `0x8F06`) with `rF = 5` sets
`reg[0xF]` to 0 — so for `X = 0xF` the instruction does not leave `Vx`
unchanged (`Vx` is the flag register and is zeroed). -/
theorem c8_counterexample :
    (outState (step 0 exC8c)).map (fun t => t.registers 0xF) = some 0 ∧
    exC8c.registers 0xF = 5 ∧ ¬((0 : Nat) = 5) :=
  ⟨rfl, rfl, by decide⟩

/-- C8, amended: SHR (`8X06`) and SHL (`8X0E`) with shift count 0 set
`reg[0xF]` to 0, leave every other register (hence `Vx` whenever `X ≠ 0xF`)
unchanged, leave ram, the stack, the memory index register, the devices and
`alert` unchanged, and advance `pc` by 2 like any ordinary instruction. -/
theorem c8_amended (rnd : Nat) (s : Chip64) (hb lb : Nat)
    (h1 : s.memory.get? s.code_ptr = some hb)
    (h2 : s.memory.get? (s.code_ptr + 1) = some lb)
    (h3 : get_nibble (concat hb lb) 3 = 8)
    (hcnt : get_nibble (concat hb lb) 1 = 0)
    (h06 : get_nibble (concat hb lb) 0 = 6 ∨ get_nibble (concat hb lb) 0 = 0xE) :
    step rnd s = Outcome.stepped
      { s with registers := updReg s.registers 0xF 0, code_ptr := s.code_ptr + 2 } ∧
    updReg s.registers 0xF 0 0xF = 0 ∧
    (∀ n, n ≠ 0xF → updReg s.registers 0xF 0 n = s.registers n) := by
  have hop0 : concat hb lb ≠ 0x0000 := fun h => absurd (h ▸ h3) (by decide)
  have hop1 : concat hb lb ≠ 0x01EE := fun h => absurd (h ▸ h3) (by decide)
  refine ⟨?_, by simp [updReg], fun n hn => by simp [updReg, hn]⟩
  rcases h06 with h0 | h0
  · rw [step_run rnd s hb lb _ _ h1 h2 hop0 hop1 (dispatch_shr rnd _ s h3 h0)]
    simp [bitwise_right_shift, hcnt]
  · rw [step_run rnd s hb lb _ _ h1 h2 hop0 hop1 (dispatch_shl rnd _ s h3 h0)]
    simp [bitwise_left_shift, hcnt]

/-- C8, witness: `SHR r3, 0` at `exC8w` (with `r3 = 7`, `rF = 5`): the flag
is cleared, `r3` is untouched, and the state otherwise only advances. -/
theorem c8_amended_witness :
    step 0 exC8w = Outcome.stepped
      { exC8w with registers := updReg exC8w.registers 0xF 0, code_ptr := exC8w.code_ptr + 2 } ∧
    updReg exC8w.registers 0xF 0 0xF = 0 ∧
    updReg exC8w.registers 0xF 0 3 = exC8w.registers 3 := by
  have h := c8_amended 0 exC8w 0x83 0x06 rfl rfl (by decide) (by decide)
    (Or.inl (by decide))
  exact ⟨h.1, h.2.1, h.2.2 3 (by decide)⟩

/-- C9: for every `MemoryDevice` with its 64 KiB buffer and every byte list
that fits below the buffer end, `write(b)` followed by `read(len(b))` at an
unchanged cursor returns exactly `b`, and `get_ptr()` still returns the same
cursor afterwards — read and write copy at the cursor without advancing it. -/
theorem c9_roundtrip (d : MemoryDevice) (b : List Nat)
    (hlen : d.memory.length = 65536)
    (hfit : d.ptr + b.length ≤ 65536) :
    ∃ d2, mdWrite d b = some d2 ∧ mdRead d2 b.length = b ∧
      mdGetPtr d2 = mdGetPtr d := by
  have hle : d.ptr + b.length ≤ d.memory.length := by omega
  refine ⟨{ d with memory := listWriteAt d.memory d.ptr b }, ?_, ?_, rfl⟩
  · rw [mdWrite, if_pos hle]
  rw [mdRead]
  apply List.ext_get?
  intro i
  by_cases hi : i < b.length
  · rw [List.get?_take hi, List.get?_drop,
      listWriteAt_get?_in b d.memory d.ptr i hi (by omega)]
  · rw [List.get?_len_le (le_trans (List.length_take_le _ _) (by omega)),
      List.get?_len_le (by omega)]

/-- C9, witness: writing `[1, 2]` at cursor 3 of a fresh 64 KiB device and
reading two bytes back returns `[1, 2]` with the cursor still at 3. -/
theorem c9_roundtrip_witness :
    ∃ d2, mdWrite exD9 [1, 2] = some d2 ∧ mdRead d2 2 = [1, 2] ∧
      mdGetPtr d2 = mdGetPtr exD9 :=
  c9_roundtrip exD9 [1, 2]
    (List.length_replicate 65536 0)
    (by show 3 + 2 ≤ 65536; norm_num)

/-- C10: executing any of the four skip instructions SNEC (`3XNN`), SNUEC
(`4XNN`), SNE (`5XY0`) and SNUE (`9XY0`) changes only the code pointer —
either the normal `+2` advance or `+4` when the skip is taken — and leaves
every register (including `reg[0xF]`), all of ram, the memory index
register, the stack, the device table and the alert flag unchanged, whether
or not the condition holds. -/
theorem c10_skip_frame (rnd : Nat) (s : Chip64) (hb lb : Nat)
    (h1 : s.memory.get? s.code_ptr = some hb)
    (h2 : s.memory.get? (s.code_ptr + 1) = some lb)
    (h3 : get_nibble (concat hb lb) 3 = 3 ∨ get_nibble (concat hb lb) 3 = 4 ∨
      get_nibble (concat hb lb) 3 = 5 ∨ get_nibble (concat hb lb) 3 = 9) :
    ∃ t, step rnd s = Outcome.stepped t ∧
      t.registers = s.registers ∧ t.memory = s.memory ∧
      t.memory_ptr = s.memory_ptr ∧ t.stack = s.stack ∧
      t.devices = s.devices ∧ t.alert = s.alert ∧
      (t.code_ptr = s.code_ptr + 2 ∨ t.code_ptr = s.code_ptr + 4) := by
  have hop0 : concat hb lb ≠ 0x0000 := by
    intro h
    rcases h3 with h3 | h3 | h3 | h3 <;> exact absurd (h ▸ h3) (by decide)
  have hop1 : concat hb lb ≠ 0x01EE := by
    intro h
    rcases h3 with h3 | h3 | h3 | h3 <;> exact absurd (h ▸ h3) (by decide)
  rcases h3 with h3 | h3 | h3 | h3
  · rw [step_run rnd s hb lb _ _ h1 h2 hop0 hop1 (dispatch_nib3_3 rnd _ s h3)]
    by_cases hc : s.registers (get_nibble (concat hb lb) 2) = low_byte (concat hb lb) <;>
      refine ⟨_, rfl, ?_, ?_, ?_, ?_, ?_, ?_, ?_⟩ <;>
      simp [skip_next_if_equal_const, hc]
  · rw [step_run rnd s hb lb _ _ h1 h2 hop0 hop1 (dispatch_nib3_4 rnd _ s h3)]
    by_cases hc : s.registers (get_nibble (concat hb lb) 2) = low_byte (concat hb lb) <;>
      refine ⟨_, rfl, ?_, ?_, ?_, ?_, ?_, ?_, ?_⟩ <;>
      simp [skip_next_if_unequal_const, hc]
  · rw [step_run rnd s hb lb _ _ h1 h2 hop0 hop1 (dispatch_nib3_5 rnd _ s h3)]
    by_cases hc : s.registers (get_nibble (concat hb lb) 2) =
        s.registers (get_nibble (concat hb lb) 1) <;>
      refine ⟨_, rfl, ?_, ?_, ?_, ?_, ?_, ?_, ?_⟩ <;>
      simp [skip_next_if_equal, hc]
  · rw [step_run rnd s hb lb _ _ h1 h2 hop0 hop1 (dispatch_nib3_9 rnd _ s h3)]
    by_cases hc : s.registers (get_nibble (concat hb lb) 2) =
        s.registers (get_nibble (concat hb lb) 1) <;>
      refine ⟨_, rfl, ?_, ?_, ?_, ?_, ?_, ?_, ?_⟩ <;>
      simp [skip_next_if_unequal, hc]

/-- C10, witness: `SNEC r0, 5` at `exC10w` with `r0 = 5` (the skip is
taken, so only the code pointer changes, by 4). -/
theorem c10_skip_frame_witness :
    ∃ t, step 0 exC10w = Outcome.stepped t ∧
      t.registers = exC10w.registers ∧ t.memory = exC10w.memory ∧
      t.memory_ptr = exC10w.memory_ptr ∧ t.stack = exC10w.stack ∧
      t.devices = exC10w.devices ∧ t.alert = exC10w.alert ∧
      (t.code_ptr = exC10w.code_ptr + 2 ∨ t.code_ptr = exC10w.code_ptr + 4) :=
  c10_skip_frame 0 exC10w 0x30 0x05 rfl rfl (Or.inl (by decide))
